import Mathlib

/-!
Verification of the DinixLtd client/ledger application's core computation:
summary aggregation, running balances, multi-client combination, statement
section selection, mileage counting, CSV summary block, and analytics
top-client ranking.

The definitions below are shallow embeddings of the TypeScript source:
* `src/lib/pdfGenerator.ts` — `calculateSummary`, `buildTableData`,
  `showKES` / `showUSD`, the section-rendering branch, `mgCount`, and
  `generateCombinedClientsPDFReport`'s merging logic;
* `src/components/ClientDetail.tsx` — `calculateSummary`, `mgCount`, the
  interactive `runningBalance`;
* the Reports page — `setClientStats`, the top-client ranking and the CSV
  `exportToExcel` SUMMARY STATISTICS block.

Modelling conventions: JavaScript numbers on ledger amounts are modelled as
integers (`Int`); a possibly-missing numeric field is `Option Int`, and the
source's `t.credit || 0` idiom becomes `Option.getD 0` (both send a missing
field and an explicit 0 to 0).  A transaction date is modelled by its epoch
timestamp (`Nat`), which is what `new Date(d).getTime()` yields for the
date strings the app stores; JavaScript's stable `Array.prototype.sort`
with comparator `getTime a - getTime b` is modelled by the stable
`List.mergeSort` on that key.
-/

namespace Dinix

/-- One ledger entry, from the `Transaction` interface of
`src/lib/pdfGenerator.ts` (fields not used by any computation here —
payment method, reference number, notes — are omitted). -/
structure Transaction where
  transaction_date : Nat
  description : String
  debit : Option Int
  credit : Option Int
deriving Repr, DecidableEq

/-- Models `t.credit || 0`. -/
def tCredit (t : Transaction) : Int := t.credit.getD 0

/-- Models `t.debit || 0`. -/
def tDebit (t : Transaction) : Int := t.debit.getD 0

/-- The net contribution `(t.credit || 0) - (t.debit || 0)` of one entry. -/
def tDelta (t : Transaction) : Int := tCredit t - tDebit t

/-- The derived summary triple `{ paid, receivable, balance }`. -/
structure Summary where
  receivable : Int
  paid : Int
  balance : Int
deriving Repr, DecidableEq

/-- Embeds `calculateSummary` of `src/lib/pdfGenerator.ts` (lines 393–404): a
single `forEach` pass accumulating `paid += t.credit || 0` and
`receivable += t.debit || 0`, then `balance = paid - receivable`. -/
def calculateSummary (txns : List Transaction) : Summary :=
  let pr := txns.foldl (fun (acc : Int × Int) t => (acc.1 + tCredit t, acc.2 + tDebit t)) (0, 0)
  { paid := pr.1, receivable := pr.2, balance := pr.1 - pr.2 }

/-- Embeds `calculateSummary` of `src/components/ClientDetail.tsx` (lines 102–114):
two `reduce` passes, `receivable = Σ (t.debit || 0)`,
`paid = Σ (t.credit || 0)`, `balance = paid - receivable`. -/
def calculateSummaryCD (txns : List Transaction) : Summary :=
  let receivable := txns.foldl (fun sum t => sum + tDebit t) 0
  let paid := txns.foldl (fun sum t => sum + tCredit t) 0
  { receivable := receivable, paid := paid, balance := paid - receivable }

/-- The ascending-by-date stable sort
`[...txns].sort((a, b) => getTime(a) - getTime(b))` used by
`buildTableData` and the combined report. -/
def sortByDate (txns : List Transaction) : List Transaction :=
  txns.mergeSort (fun a b => a.transaction_date ≤ b.transaction_date)

/-- The numeric content of the statement rows produced by `buildTableData`
(`src/lib/pdfGenerator.ts` lines 129–145) after sorting: for each entry,
`(inAmt, outAmt, runBal)` with `inAmt = t.credit || 0`,
`outAmt = t.debit || 0` and the mutable accumulator
`runBal += inAmt - outAmt`.  (The source additionally formats these numbers
into display strings, which carries no further information.) -/
def tableRowsAux (runBal : Int) : List Transaction → List (Int × Int × Int)
  | [] => []
  | t :: ts =>
    let inAmt := tCredit t
    let outAmt := tDebit t
    let b := runBal + inAmt - outAmt
    (inAmt, outAmt, b) :: tableRowsAux b ts

/-- Embeds `buildTableData` (lines 122–146): sort ascending by date, then annotate
each row with the running balance starting from 0. -/
def buildTableData (txns : List Transaction) : List (Int × Int × Int) :=
  tableRowsAux 0 (sortByDate txns)

-- ── Generic accumulation lemmas ─────────────────────────────────────────

theorem foldl_pair_sum (txns : List Transaction) (a b : Int) :
    txns.foldl (fun (acc : Int × Int) t => (acc.1 + tCredit t, acc.2 + tDebit t)) (a, b) =
      (a + (txns.map tCredit).sum, b + (txns.map tDebit).sum) := by
  induction txns generalizing a b with
  | nil => simp
  | cons t ts ih => simp [ih, add_assoc]

theorem foldl_add_sum (f : Transaction → Int) (txns : List Transaction) (a : Int) :
    txns.foldl (fun sum t => sum + f t) a = a + (txns.map f).sum := by
  induction txns generalizing a with
  | nil => simp
  | cons t ts ih => simp [ih, add_assoc]

theorem calculateSummary_eq (txns : List Transaction) :
    calculateSummary txns =
      { paid := (txns.map tCredit).sum, receivable := (txns.map tDebit).sum,
        balance := (txns.map tCredit).sum - (txns.map tDebit).sum } := by
  unfold calculateSummary
  rw [foldl_pair_sum]
  simp

theorem calculateSummaryCD_eq (txns : List Transaction) :
    calculateSummaryCD txns =
      { paid := (txns.map tCredit).sum, receivable := (txns.map tDebit).sum,
        balance := (txns.map tCredit).sum - (txns.map tDebit).sum } := by
  simp [calculateSummaryCD, foldl_add_sum]

theorem map_sortByDate_sum (f : Transaction → Int) (txns : List Transaction) :
    ((sortByDate txns).map f).sum = (txns.map f).sum :=
  ((txns.mergeSort_perm _).map f).sum_eq

/-- C1 — For every transaction list (in either currency, and for both the
report generator's and the client-detail page's implementation),
`paid = Σ credits`, `receivable = Σ debits`, `balance = paid − receivable`,
with a missing or zero numeric field contributing 0; and the empty list
yields `Summary {0, 0, 0}`. -/
theorem summary_sums_and_empty (txns : List Transaction) :
    (calculateSummary txns).paid = (txns.map tCredit).sum ∧
    (calculateSummary txns).receivable = (txns.map tDebit).sum ∧
    (calculateSummary txns).balance =
      (calculateSummary txns).paid - (calculateSummary txns).receivable ∧
    calculateSummaryCD txns = calculateSummary txns ∧
    tCredit { transaction_date := 0, description := "", debit := none, credit := none } = 0 ∧
    tCredit { transaction_date := 0, description := "", debit := none, credit := some 0 } = 0 ∧
    calculateSummary [] = { receivable := 0, paid := 0, balance := 0 } := by
  refine ⟨?_, ?_, ?_, ?_, rfl, rfl, rfl⟩ <;>
    simp [calculateSummary_eq, calculateSummaryCD_eq]

-- ── C2: running balance of the last statement row ───────────────────────

theorem sum_map_tDelta (l : List Transaction) :
    (l.map tDelta).sum = (l.map tCredit).sum - (l.map tDebit).sum := by
  induction l with
  | nil => simp
  | cons t ts ih => simp [tDelta, ih]; ring

theorem tableRowsAux_last_balance (l : List Transaction) (acc : Int) :
    ((tableRowsAux acc l).map (fun r => r.2.2)).getLastD acc =
      acc + (l.map tDelta).sum := by
  induction l generalizing acc with
  | nil => simp [tableRowsAux]
  | cons t ts ih =>
    simp only [tableRowsAux, List.map_cons, List.getLastD_cons, ih, List.map_cons,
      List.sum_cons, tDelta]
    ring

/-- C2 — For every transaction list, the running balance in the last row of
the statement table (sorted ascending by date, balance accumulated as
credit − debit from zero) equals `Summary.balance` over the same list (the
empty table is read as balance 0, matching the empty summary). -/
theorem last_row_balance_eq_summary (txns : List Transaction) :
    ((buildTableData txns).map (fun r => r.2.2)).getLastD 0 =
      (calculateSummary txns).balance := by
  unfold buildTableData
  rw [tableRowsAux_last_balance, sum_map_tDelta, map_sortByDate_sum, map_sortByDate_sum,
    calculateSummary_eq]
  ring

-- ── C10: the interactive (descending display) running balance ───────────

/-- The on-screen balance of the row at `index` in `ClientDetail.tsx`
(lines 1041–1049 and 1282–1290):
`currentTransactions.slice(index).reduce((sum, t) => sum + Number(t.credit || 0) - Number(t.debit || 0), 0)`. -/
def runningBalanceAt (txns : List Transaction) (index : Nat) : Int :=
  (txns.drop index).foldl (fun sum t => sum + tCredit t - tDebit t) 0

theorem foldl_delta_sum (l : List Transaction) (a : Int) :
    l.foldl (fun sum t => sum + tCredit t - tDebit t) a = a + (l.map tDelta).sum := by
  induction l generalizing a with
  | nil => simp
  | cons t ts ih => simp [ih, tDelta]; ring

/-- C10 — In the interactive descending display, the balance shown on the
row at index `i` equals the sum of (credit − debit) over the transactions
at indices `i` through the end of the list, and the topmost (newest) row's
balance equals `Summary.balance` over the same list. -/
theorem running_balance_drop_sum (txns : List Transaction) (i : Nat) :
    runningBalanceAt txns i = ((txns.drop i).map tDelta).sum ∧
    runningBalanceAt txns 0 = (calculateSummaryCD txns).balance := by
  constructor
  · rw [runningBalanceAt, foldl_delta_sum]; ring
  · rw [runningBalanceAt, List.drop_zero, foldl_delta_sum, sum_map_tDelta,
      calculateSummaryCD_eq]
    ring

-- ── Multi-client combiner (`generateCombinedClientsPDFReport`) ──────────

/-- The `Client` interface of `src/lib/pdfGenerator.ts`. -/
structure Client where
  client_name : String
  client_code : String
  email : Option String
  phone : Option String
  business_name : Option String
  address : Option String
deriving Repr, DecidableEq

/-- One element of the `clients` argument of
`generateCombinedClientsPDFReport`. -/
structure ClientBundle where
  client : Client
  transactionsKES : List Transaction
  transactionsUSD : List Transaction
deriving Repr, DecidableEq

/-- The description rewrite applied to each merged transaction
(lines 359–377): `baseDescription ? name + " - " + baseDescription : name`
where `baseDescription = t.description || ""`. -/
def rewriteDescription (name : String) (t : Transaction) : Transaction :=
  { t with
    description :=
      if t.description = "" then name else name ++ " - " ++ t.description }

/-- The `allKES` accumulation (lines 355–367): every client's KES
transactions, in client order, each with its description rewritten. -/
def allKES (clients : List ClientBundle) : List Transaction :=
  clients.flatMap fun cb =>
    cb.transactionsKES.map (rewriteDescription cb.client.client_name)

/-- The `allUSD` accumulation (lines 369–377). -/
def allUSD (clients : List ClientBundle) : List Transaction :=
  clients.flatMap fun cb =>
    cb.transactionsUSD.map (rewriteDescription cb.client.client_name)

/-- Embeds `combinedKES` (lines 381–385): the merged KES list sorted by date. -/
def combinedKES (clients : List ClientBundle) : List Transaction :=
  sortByDate (allKES clients)

/-- Embeds `combinedUSD` (lines 387–391). -/
def combinedUSD (clients : List ClientBundle) : List Transaction :=
  sortByDate (allUSD clients)

/-- The synthetic display name (lines 340–343):
names joined with " & " when at most 2, otherwise the first two joined
with " & " followed by " + (n − 2) more". -/
def displayName (allNames : List String) : String :=
  if allNames.length ≤ 2 then String.intercalate " & " allNames
  else
    String.intercalate " & " (allNames.take 2) ++ " + " ++
      toString (allNames.length - 2) ++ " more"

/-- The synthetic combined client identity (lines 337–352). -/
def combinedClient (clients : List ClientBundle) : Client :=
  { client_name := displayName (clients.map fun cb => cb.client.client_name)
    client_code :=
      String.intercalate " + " (clients.map fun cb => cb.client.client_code)
    email := none, phone := none, business_name := none, address := none }

/-- Componentwise sum of two summaries. -/
def addSummary (a b : Summary) : Summary :=
  { receivable := a.receivable + b.receivable, paid := a.paid + b.paid,
    balance := a.balance + b.balance }

/-- Componentwise sum of a list of summaries. -/
def sumSummaries (ss : List Summary) : Summary :=
  ss.foldr addSummary { receivable := 0, paid := 0, balance := 0 }

theorem sumSummaries_eq (ss : List Summary) :
    sumSummaries ss =
      { receivable := (ss.map Summary.receivable).sum,
        paid := (ss.map Summary.paid).sum,
        balance := (ss.map Summary.balance).sum } := by
  induction ss with
  | nil => rfl
  | cons s ts ih => simp [sumSummaries, addSummary] at ih ⊢; simp [ih]

theorem tCredit_rewrite (name : String) (t : Transaction) :
    tCredit (rewriteDescription name t) = tCredit t := rfl

theorem tDebit_rewrite (name : String) (t : Transaction) :
    tDebit (rewriteDescription name t) = tDebit t := rfl

theorem sum_map_flatMap_rewrite (f : Transaction → Int)
    (hf : ∀ name t, f (rewriteDescription name t) = f t)
    (g : ClientBundle → List Transaction) (clients : List ClientBundle) :
    ((clients.flatMap fun cb =>
        (g cb).map (rewriteDescription cb.client.client_name)).map f).sum =
      (clients.map fun cb => ((g cb).map f).sum).sum := by
  induction clients with
  | nil => simp
  | cons cb rest ih =>
    simp only [List.flatMap_cons, List.map_append, List.sum_append, ih,
      List.map_map, List.map_cons, List.sum_cons]
    congr 1
    simp [Function.comp_def, hf]

theorem sum_map_sub {α : Type} (f g : α → Int) (l : List α) :
    (l.map fun x => f x - g x).sum = (l.map f).sum - (l.map g).sum := by
  induction l with
  | nil => simp
  | cons x xs ih => simp [ih]; ring

theorem length_flatMap_rewrite (g : ClientBundle → List Transaction)
    (clients : List ClientBundle) :
    (clients.flatMap fun cb =>
        (g cb).map (rewriteDescription cb.client.client_name)).length =
      (clients.map fun cb => (g cb).length).sum := by
  rw [List.length_flatMap]
  simp [Function.comp_def]

/-- C3 — For every non-empty client list, each merged per-currency list has
length equal to the sum of the per-client list lengths, and the Summary of
the merged list is the componentwise sum of the per-client Summaries. -/
theorem combined_length_and_summary (clients : List ClientBundle)
    (h : clients ≠ []) :
    (combinedKES clients).length =
      (clients.map fun cb => cb.transactionsKES.length).sum ∧
    calculateSummary (combinedKES clients) =
      sumSummaries (clients.map fun cb => calculateSummary cb.transactionsKES) ∧
    (combinedUSD clients).length =
      (clients.map fun cb => cb.transactionsUSD.length).sum ∧
    calculateSummary (combinedUSD clients) =
      sumSummaries (clients.map fun cb => calculateSummary cb.transactionsUSD) := by
  have key : ∀ g : ClientBundle → List Transaction,
      (sortByDate (clients.flatMap fun cb =>
          (g cb).map (rewriteDescription cb.client.client_name))).length =
        (clients.map fun cb => (g cb).length).sum ∧
      calculateSummary (sortByDate (clients.flatMap fun cb =>
          (g cb).map (rewriteDescription cb.client.client_name))) =
        sumSummaries (clients.map fun cb => calculateSummary (g cb)) := by
    intro g
    constructor
    · rw [sortByDate, (List.mergeSort_perm _ _).length_eq, length_flatMap_rewrite]
    · rw [calculateSummary_eq, sumSummaries_eq]
      simp only [map_sortByDate_sum,
        sum_map_flatMap_rewrite tCredit tCredit_rewrite,
        sum_map_flatMap_rewrite tDebit tDebit_rewrite,
        List.map_map]
      simp [Function.comp_def, calculateSummary_eq, sum_map_tDelta]
      exact (sum_map_sub _ _ _).symm
  exact ⟨(key _).1, (key _).2, (key _).1, (key _).2⟩

-- ── Concrete data for witnesses and the §8 combination scenario ─────────

def clientA : Client :=
  { client_name := "A", client_code := "A01", email := none, phone := none,
    business_name := none, address := none }

def clientB : Client :=
  { client_name := "B", client_code := "B01", email := none, phone := none,
    business_name := none, address := none }

def clientC : Client :=
  { client_name := "C", client_code := "C01", email := none, phone := none,
    business_name := none, address := none }

/-- Client A's KES entry of the §8 scenario: credit 500, description
"rent", dated before client B's entry. -/
def rentTxn : Transaction :=
  { transaction_date := 1, description := "rent", debit := none, credit := some 500 }

/-- Client B's KES entry of the §8 scenario: debit 200, empty description. -/
def blankTxn : Transaction :=
  { transaction_date := 2, description := "", debit := some 200, credit := none }

def bundleA : ClientBundle :=
  { client := clientA, transactionsKES := [rentTxn], transactionsUSD := [] }

def bundleB : ClientBundle :=
  { client := clientB, transactionsKES := [blankTxn], transactionsUSD := [] }

def bundleC : ClientBundle :=
  { client := clientC, transactionsKES := [], transactionsUSD := [] }

def demoBundles : List ClientBundle := [bundleA, bundleB]

def demoBundles3 : List ClientBundle := [bundleA, bundleB, bundleC]

theorem combined_length_and_summary_witness :
    demoBundles ≠ [] ∧
    ((combinedKES demoBundles).length =
        (demoBundles.map fun cb => cb.transactionsKES.length).sum ∧
      calculateSummary (combinedKES demoBundles) =
        sumSummaries (demoBundles.map fun cb => calculateSummary cb.transactionsKES) ∧
      (combinedUSD demoBundles).length =
        (demoBundles.map fun cb => cb.transactionsUSD.length).sum ∧
      calculateSummary (combinedUSD demoBundles) =
        sumSummaries (demoBundles.map fun cb => calculateSummary cb.transactionsUSD)) :=
  ⟨by simp [demoBundles],
   combined_length_and_summary demoBundles (by simp [demoBundles])⟩

/-- C6 — Every transaction of a merged per-currency list is one of the
input transactions with its description rewritten to
"{client name} - {original description}" (just the client name when the
original description is empty); and in the §8 scenario (A: KES credit 500
desc "rent" dated first; B: KES debit 200 desc "" dated second) the merged
descriptions are ["A - rent", "B"] and the combined balance is 300. -/
theorem combiner_description_rewrite (clients : List ClientBundle)
    (h : clients ≠ []) :
    (∀ t ∈ combinedKES clients, ∃ cb ∈ clients, ∃ t0 ∈ cb.transactionsKES,
        t = rewriteDescription cb.client.client_name t0) ∧
    (∀ t ∈ combinedUSD clients, ∃ cb ∈ clients, ∃ t0 ∈ cb.transactionsUSD,
        t = rewriteDescription cb.client.client_name t0) ∧
    (∀ name t0, (rewriteDescription name t0).description =
        if t0.description = "" then name
        else name ++ " - " ++ t0.description) ∧
    (combinedKES demoBundles).map Transaction.description = ["A - rent", "B"] ∧
    (calculateSummary (combinedKES demoBundles)).balance = 300 := by
  have hc : combinedKES demoBundles = allKES demoBundles := by
    rw [combinedKES, sortByDate]
    exact List.mergeSort_of_sorted (by decide)
  refine ⟨?_, ?_, fun name t0 => rfl, by rw [hc]; rfl, by rw [hc]; rfl⟩
  · intro t ht
    rw [combinedKES, sortByDate] at ht
    have hm := (List.mergeSort_perm _ _).mem_iff.mp ht
    simp only [allKES, List.mem_flatMap, List.mem_map] at hm
    obtain ⟨cb, hcb, t0, ht0, rfl⟩ := hm
    exact ⟨cb, hcb, t0, ht0, rfl⟩
  · intro t ht
    rw [combinedUSD, sortByDate] at ht
    have hm := (List.mergeSort_perm _ _).mem_iff.mp ht
    simp only [allUSD, List.mem_flatMap, List.mem_map] at hm
    obtain ⟨cb, hcb, t0, ht0, rfl⟩ := hm
    exact ⟨cb, hcb, t0, ht0, rfl⟩

theorem combiner_description_rewrite_witness :
    demoBundles ≠ [] ∧
    ((∀ t ∈ combinedKES demoBundles, ∃ cb ∈ demoBundles,
        ∃ t0 ∈ cb.transactionsKES,
          t = rewriteDescription cb.client.client_name t0) ∧
      (∀ t ∈ combinedUSD demoBundles, ∃ cb ∈ demoBundles,
        ∃ t0 ∈ cb.transactionsUSD,
          t = rewriteDescription cb.client.client_name t0) ∧
      (∀ name t0, (rewriteDescription name t0).description =
          if t0.description = "" then name
          else name ++ " - " ++ t0.description) ∧
      (combinedKES demoBundles).map Transaction.description = ["A - rent", "B"] ∧
      (calculateSummary (combinedKES demoBundles)).balance = 300) :=
  ⟨by simp [demoBundles],
   combiner_description_rewrite demoBundles (by simp [demoBundles])⟩

/-- C7 — For every non-empty client list, the combined display name is the
client names joined with " & " when there are at most 2 clients, and
otherwise the first two names followed by " + N more" where N is the
number of remaining clients; the combined display code is all client codes
joined with " + ". -/
theorem combined_display_identity (clients : List ClientBundle)
    (h : clients ≠ []) :
    (combinedClient clients).client_name =
      (if clients.length ≤ 2 then
        String.intercalate " & " (clients.map fun cb => cb.client.client_name)
      else
        String.intercalate " & "
            ((clients.map fun cb => cb.client.client_name).take 2) ++
          " + " ++ toString (clients.length - 2) ++ " more") ∧
    (combinedClient clients).client_code =
      String.intercalate " + " (clients.map fun cb => cb.client.client_code) := by
  constructor
  · simp [combinedClient, displayName, List.length_map]
  · rfl

theorem combined_display_identity_witness :
    demoBundles3 ≠ [] ∧
    ((combinedClient demoBundles3).client_name =
      (if demoBundles3.length ≤ 2 then
        String.intercalate " & "
          (demoBundles3.map fun cb => cb.client.client_name)
      else
        String.intercalate " & "
            ((demoBundles3.map fun cb => cb.client.client_name).take 2) ++
          " + " ++ toString (demoBundles3.length - 2) ++ " more") ∧
    (combinedClient demoBundles3).client_code =
      String.intercalate " + " (demoBundles3.map fun cb => cb.client.client_code)) :=
  ⟨by simp [demoBundles3],
   combined_display_identity demoBundles3 (by simp [demoBundles3])⟩

-- ── C4: statement section inclusion (`generateClientPDFReport`) ─────────

/-- The report-type selector of `ReportOptions`. -/
inductive ReportType
  | full
  | summary
  | kesOnly
  | usdOnly
deriving DecidableEq, Repr

/-- Embeds `showKES` (`src/lib/pdfGenerator.ts` lines 63–67). -/
def showKES (reportType : ReportType) (transactionsKES : List Transaction) : Bool :=
  (reportType = ReportType.full || reportType = ReportType.kesOnly ||
      reportType = ReportType.summary) &&
    transactionsKES.length > 0

/-- Embeds `showUSD` (lines 68–70). -/
def showUSD (reportType : ReportType) (transactionsUSD : List Transaction) : Bool :=
  (reportType = ReportType.full || reportType = ReportType.usdOnly) &&
    transactionsUSD.length > 0

/-- An observable piece of the rendered statement body. -/
inductive StatementPart
  | kesSection
  | usdSection
  | noTransactionsNotice
deriving DecidableEq, Repr

/-- The section-rendering branch of `generateClientPDFReport`
(lines 253–276): the KES table when `showKES`, then the USD table when
`showUSD`, and the "No transactions recorded." notice when neither. -/
def renderedParts (reportType : ReportType) (kes usd : List Transaction) :
    List StatementPart :=
  (if showKES reportType kes then [StatementPart.kesSection] else []) ++
  (if showUSD reportType usd then [StatementPart.usdSection] else []) ++
  (if !showKES reportType kes && !showUSD reportType usd then
    [StatementPart.noTransactionsNotice] else [])

/-- The spec's "the report-type flag selects KES". -/
def SelectsKES (rt : ReportType) : Prop :=
  rt = ReportType.full ∨ rt = ReportType.kesOnly ∨ rt = ReportType.summary

/-- The spec's "the report-type flag selects USD". -/
def SelectsUSD (rt : ReportType) : Prop :=
  rt = ReportType.full ∨ rt = ReportType.usdOnly

/-- C4 — A currency section is rendered iff its report-type flag selects
that currency and its transaction list is non-empty; the "no transactions"
notice appears iff neither currency qualifies, and in that case the
rendered body is exactly the single notice. -/
theorem section_inclusion (rt : ReportType) (kes usd : List Transaction) :
    (StatementPart.kesSection ∈ renderedParts rt kes usd ↔
      SelectsKES rt ∧ kes ≠ []) ∧
    (StatementPart.usdSection ∈ renderedParts rt kes usd ↔
      SelectsUSD rt ∧ usd ≠ []) ∧
    (StatementPart.noTransactionsNotice ∈ renderedParts rt kes usd ↔
      ¬(SelectsKES rt ∧ kes ≠ []) ∧ ¬(SelectsUSD rt ∧ usd ≠ [])) ∧
    (¬(SelectsKES rt ∧ kes ≠ []) → ¬(SelectsUSD rt ∧ usd ≠ []) →
      renderedParts rt kes usd = [StatementPart.noTransactionsNotice]) := by
  have hk : showKES rt kes = true ↔ SelectsKES rt ∧ kes ≠ [] := by
    cases rt <;>
      simp [showKES, SelectsKES, List.length_pos]
  have hu : showUSD rt usd = true ↔ SelectsUSD rt ∧ usd ≠ [] := by
    cases rt <;>
      simp [showUSD, SelectsUSD, List.length_pos]
  rw [← hk, ← hu]
  unfold renderedParts
  cases hks : showKES rt kes <;> cases hus : showUSD rt usd <;> simp

theorem section_inclusion_witness :
    renderedParts ReportType.summary [] [rentTxn] =
      [StatementPart.noTransactionsNotice] :=
  (section_inclusion ReportType.summary [] [rentTxn]).2.2.2
    (by simp) (by simp [SelectsUSD])

-- ── C8: the CSV SUMMARY STATISTICS block ────────────────────────────────

/-- The `clientStats` record of the Reports page. -/
structure ClientStats where
  totalClients : Nat
  activeClients : Nat
  inactiveClients : Nat
  totalBalanceKES : Int
  totalBalanceUSD : Int
  totalTransactions : Nat
deriving Repr, DecidableEq

/-- The `setClientStats` construction (Reports page, lines 192–200):
`inactiveClients` is computed as `totalClients - activeClients`. -/
def mkClientStats (totalClients activeClients : Nat)
    (totalBalanceKES totalBalanceUSD : Int) (totalTransactions : Nat) :
    ClientStats :=
  { totalClients := totalClients, activeClients := activeClients,
    inactiveClients := totalClients - activeClients,
    totalBalanceKES := totalBalanceKES, totalBalanceUSD := totalBalanceUSD,
    totalTransactions := totalTransactions }

/-- The SUMMARY STATISTICS block emitted by `exportToExcel`
(Reports page, lines 578–585), numeric fields serialized by string
interpolation of the number (plain decimal text). -/
def summaryStatisticsBlock (s : ClientStats) : String :=
  "SUMMARY STATISTICS\n" ++
  "Total Clients," ++ toString s.totalClients ++ "\n" ++
  "Active Clients," ++ toString s.activeClients ++ "\n" ++
  "Inactive Clients," ++ toString s.inactiveClients ++ "\n" ++
  "Total Transactions," ++ toString s.totalTransactions ++ "\n" ++
  "Total Balance (KES)," ++ toString s.totalBalanceKES ++ "\n" ++
  "Total Balance (USD)," ++ toString s.totalBalanceUSD ++ "\n\n"

/-- C8 — For `clientStats` built from totals 5, active 3, KES 10000,
USD 250 and 12 transactions, the SUMMARY STATISTICS block is exactly the
header line followed by the six key,value lines in the specified order
(numeric fields as plain decimal text), closed by the blank line that ends
the block. -/
theorem csv_summary_block :
    summaryStatisticsBlock (mkClientStats 5 3 10000 250 12) =
      String.intercalate "\n"
        ["SUMMARY STATISTICS", "Total Clients,5", "Active Clients,3",
         "Inactive Clients,2", "Total Transactions,12",
         "Total Balance (KES),10000", "Total Balance (USD),250"] ++ "\n\n" := by
  rfl

-- ── C9: analytics top-client ranking ────────────────────────────────────

/-- The `TopClient` rollup record of the Reports page. -/
structure TopClient where
  client_id : String
  client_name : String
  client_code : String
  total_balance_kes : Int
  total_balance_usd : Int
  transaction_count : Nat
deriving Repr, DecidableEq

/-- The sort key of the top-client ranking (Reports page, lines 246–248):
`total_balance_kes + total_balance_usd * 130` (rough KES-per-USD
conversion). -/
def composite (c : TopClient) : Int :=
  c.total_balance_kes + c.total_balance_usd * 130

/-- Embeds `topClientsList` (Reports page, lines 245–251): the client rollups
sorted descending by the composite (stable sort, as
`Array.prototype.sort`) and truncated to the first 10. -/
def topClientsList (clients : List TopClient) : List TopClient :=
  (clients.mergeSort fun a b => decide (composite b ≤ composite a)).take 10

/-- C9 — The top-client list has at most 10 entries, is ordered descending
by the currency-weighted composite, and every entry is an unmodified input
rollup record (the composite is only a sort key and appears in no output
field). -/
theorem top_clients_ranking (clients : List TopClient) :
    (topClientsList clients).length ≤ 10 ∧
    List.Pairwise (fun a b => composite b ≤ composite a)
      (topClientsList clients) ∧
    ∀ c ∈ topClientsList clients, c ∈ clients := by
  refine ⟨List.length_take_le 10 _, ?_, ?_⟩
  · have hs := @List.sorted_mergeSort TopClient
      (fun a b => decide (composite b ≤ composite a))
      (fun a b c hab hbc => by
        simp only [decide_eq_true_eq] at hab hbc ⊢
        exact le_trans hbc hab)
      (fun a b => by
        simp only [Bool.or_eq_true, decide_eq_true_eq]
        exact le_total (composite b) (composite a))
      clients
    have hp := List.Pairwise.sublist (List.take_sublist 10 _) hs
    exact hp.imp fun h => by simpa using h
  · intro c hc
    have hm := (List.take_sublist 10 _).subset hc
    exact ((List.mergeSort_perm clients _).mem_iff).mp hm

theorem top_clients_ranking_witness :
    (topClientsList []).length ≤ 10 ∧
    List.Pairwise (fun a b => composite b ≤ composite a) (topClientsList []) ∧
    ∀ c ∈ topClientsList ([] : List TopClient), c ∈ ([] : List TopClient) :=
  top_clients_ranking []

-- ── C5: the mileage (MG) counter ────────────────────────────────────────

/-- JavaScript's word-character class \w = [A-Za-z0-9_]; the source regex
is not Unicode-aware, so this is ASCII-only, matching `Char.isAlphanum`. -/
def isWordChar (c : Char) : Bool := c.isAlphanum || c = '_'

/-- Whether the first character of `l` (when there is one) is a non-word
character: the right-hand \b boundary against the rest of the input. -/
def headNotWord (l : List Char) : Bool :=
  match l with
  | [] => true
  | c :: _ => !isWordChar c

/-- The test `/\bmg\b/i` over the characters of a description: scan for an
occurrence of "mg" (case-insensitive) with a word boundary on both sides.
`prevWord` records whether the character immediately before the remaining
input is a word character (false at the start of the string). -/
def mgMatchAux (prevWord : Bool) : List Char → Bool
  | [] => false
  | [_] => false
  | c1 :: c2 :: rest =>
    (!prevWord && c1.toLower = 'm' && c2.toLower = 'g' && headNotWord rest) ||
      mgMatchAux (isWordChar c1) (c2 :: rest)

/-- Models `/\bmg\b/i.test(description)`. -/
def hasMgWord (s : String) : Bool := mgMatchAux false s.data

/-- Embeds `mgCount` (`src/lib/pdfGenerator.ts` lines 175–177; identically
`ClientDetail.tsx` lines 131–136): the number of transactions whose
description passes `/\bmg\b/i`. -/
def mgCount (txns : List Transaction) : Nat :=
  (txns.filter fun t => hasMgWord t.description).length

/-- The spec's wording, stated declaratively: the description contains the
standalone whole word "mg" case-insensitively — an occurrence of m/M then
g/G neither preceded nor followed by a word character. -/
def SpecMgWord (s : String) : Prop :=
  ∃ pre a b post, s.data = pre ++ a :: b :: post ∧
    a.toLower = 'm' ∧ b.toLower = 'g' ∧
    (∀ c, pre.getLast? = some c → isWordChar c = false) ∧
    (∀ c, post.head? = some c → isWordChar c = false)

theorem mgMatchAux_iff (s : List Char) : ∀ pw : Bool,
    mgMatchAux pw s = true ↔
      ∃ pre a b post, s = pre ++ a :: b :: post ∧
        a.toLower = 'm' ∧ b.toLower = 'g' ∧
        (pre = [] → pw = false) ∧
        (∀ c, pre.getLast? = some c → isWordChar c = false) ∧
        (∀ c, post.head? = some c → isWordChar c = false) := by
  induction s with
  | nil =>
    intro pw
    simp only [mgMatchAux, Bool.false_eq_true, false_iff]
    rintro ⟨pre, a, b, post, h, -⟩
    simp at h
  | cons c1 t ih =>
    cases t with
    | nil =>
      intro pw
      simp only [mgMatchAux, Bool.false_eq_true, false_iff]
      rintro ⟨pre, a, b, post, h, -⟩
      cases pre <;> simp_all
    | cons c2 rest =>
      intro pw
      simp only [mgMatchAux]
      constructor
      · intro h
        rcases Bool.or_eq_true_iff.mp h with hA | hrec
        · have h1 : pw = false ∧ c1.toLower = 'm' ∧ c2.toLower = 'g' ∧
              headNotWord rest = true := by
            simpa [Bool.and_eq_true, Bool.not_eq_true', and_assoc] using hA
          obtain ⟨hpw, hm, hg, hh⟩ := h1
          refine ⟨[], c1, c2, rest, rfl, hm, hg, fun _ => hpw, by simp, ?_⟩
          intro c hc
          cases rest with
          | nil => simp at hc
          | cons c3 r =>
            obtain rfl : c3 = c := by simpa using hc
            simpa [headNotWord, Bool.not_eq_true'] using hh
        · obtain ⟨pre', a, b, post, heq, hm, hg, hpre0, hlast, hpost⟩ :=
            (ih (isWordChar c1)).mp hrec
          refine ⟨c1 :: pre', a, b, post, by simp [heq], hm, hg, by simp, ?_, hpost⟩
          intro c hc
          cases pre' with
          | nil =>
            obtain rfl : c1 = c := by simpa using hc
            exact hpre0 rfl
          | cons q qs =>
            rw [List.getLast?_cons_cons] at hc
            exact hlast c hc
      · rintro ⟨pre, a, b, post, heq, hm, hg, hpre0, hlast, hpost⟩
        apply Bool.or_eq_true_iff.mpr
        cases pre with
        | nil =>
          left
          obtain ⟨ha, hb, hpo⟩ : c1 = a ∧ c2 = b ∧ rest = post := by
            simpa using heq
          subst ha; subst hb; subst hpo
          have hpw := hpre0 rfl
          subst hpw
          simp only [Bool.not_false, Bool.true_and, Bool.and_eq_true,
            decide_eq_true_eq]
          refine ⟨⟨hm, hg⟩, ?_⟩
          cases rest with
          | nil => rfl
          | cons c3 r =>
            simp [headNotWord, Bool.not_eq_true', hpost c3 (by simp)]
        | cons q pre' =>
          right
          obtain ⟨hq, htail⟩ : c1 = q ∧ c2 :: rest = pre' ++ a :: b :: post := by
            simpa using heq
          subst hq
          apply (ih (isWordChar c1)).mpr
          refine ⟨pre', a, b, post, htail, hm, hg, ?_, ?_, hpost⟩
          · intro hpre'
            subst hpre'
            exact hlast c1 (by simp)
          · intro c hc
            apply hlast c
            cases pre' with
            | nil => simp at hc
            | cons r rs =>
              rw [List.getLast?_cons_cons]
              exact hc

/-- The §8 mileage example: descriptions "MG run", "mileage", "3mg". -/
def mgRunTxn : Transaction :=
  { transaction_date := 0, description := "MG run", debit := none, credit := none }

def mileageTxn : Transaction :=
  { transaction_date := 0, description := "mileage", debit := none, credit := none }

def threeMgTxn : Transaction :=
  { transaction_date := 0, description := "3mg", debit := none, credit := none }

/-- C5 — The mileage footer count is the number of transactions whose
description contains the standalone whole word "mg" case-insensitively
(the source regex `/\bmg\b/i` agrees with the declarative reading), and on
descriptions ["MG run", "mileage", "3mg"] it counts exactly 1. -/
theorem mg_whole_word_count :
    (∀ s, hasMgWord s = true ↔ SpecMgWord s) ∧
    mgCount [mgRunTxn, mileageTxn, threeMgTxn] = 1 := by
  constructor
  · intro s
    unfold hasMgWord SpecMgWord
    rw [mgMatchAux_iff]
    constructor
    · rintro ⟨pre, a, b, post, h1, h2, h3, -, h5, h6⟩
      exact ⟨pre, a, b, post, h1, h2, h3, h5, h6⟩
    · rintro ⟨pre, a, b, post, h1, h2, h3, h5, h6⟩
      exact ⟨pre, a, b, post, h1, h2, h3, fun _ => rfl, h5, h6⟩
  · decide

theorem mg_whole_word_count_witness :
    (hasMgWord "MG run" = true ↔ SpecMgWord "MG run") ∧
    mgCount [mgRunTxn, mileageTxn, threeMgTxn] = 1 :=
  ⟨mg_whole_word_count.1 "MG run", mg_whole_word_count.2⟩

end Dinix
